import Mathlib

/-!
Verification of the HGDP+1kGP PCA-projection pipeline
(`hgdp_tgp_reference/hgdp_tgp_pca_intersection.py`).

The pipeline is a sequence of bulk transformations over a genotype matrix:
sample-QC filtering (`ref_filtering`), variant intersection against a target
SNP panel with optional GRCh37→GRCh38 liftover (`intersect_target_ref`),
allele-frequency filtering plus LD pruning (`ld_prune_filter`), and PCA with
score/loading export (`run_pca`).

This file shallowly embeds those stages.  Genotype matrices become lists of
rows carrying per-sample diploid calls; loci and alleles keep their textual
identity; allele frequencies and LD statistics are computed over `ℚ`
(the source's float arithmetic is exact rational arithmetic on genotype
counts, up to rounding).  The coordinate-liftover chain is out of scope for
the pipeline itself and enters as an opaque `Locus → Option Locus` function.
Parts of the pipeline delegated to the external Hail engine
(`hl.ld_prune`, `hl.hwe_normalized_pca`) are modelled from the spec and are
marked as such in their doc comments.
-/

/-- A genomic locus: contig (chromosome) name and 1-based position.
The assembly a locus lives under is tracked by which key-building
function produced it (GRCh38 directly, or via liftover from GRCh37). -/
structure Locus where
  contig : String
  position : Nat
deriving DecidableEq

/-- A diploid genotype call at a biallelic variant: the number of alternate
alleles carried (0, 1 or 2), or `none` for a missing call. -/
abbrev GTCall := Option (Fin 3)

/-- One row of a genotype matrix: the variant's locus, its ordered allele
list (first entry reference, second alternate), and the per-sample calls
in column order. -/
structure MatrixRow where
  locus : Locus
  alleles : List String
  calls : List GTCall
deriving DecidableEq

/-- The row key of a matrix row, `(locus, alleles)`, matching the source's
`mt.row_key`. -/
def rowKey (r : MatrixRow) : Locus × List String := (r.locus, r.alleles)

/- ## String primitives

The source manipulates strings with Python's `str.lower`, `str.startswith`
and `re.sub`.  These are embedded over the character list of a `String`
(the relevant data — QC field names and assembly labels — is ASCII). -/

/-- Whether the second character list begins with the first. -/
def leadsWith : List Char → List Char → Bool
  | [], _ => true
  | _ :: _, [] => false
  | p :: ps, c :: cs => p == c && leadsWith ps cs

/-- Python's `s.startswith(pat)`. -/
def strStartsWith (s pat : String) : Bool :=
  leadsWith pat.data s.data

/-- Delete the non-overlapping occurrences of `pat`, scanning left to
right.  `fuel` only bounds the recursion; an empty pattern deletes
nothing, as `re.sub` with an empty pattern leaves the text unchanged up to
empty insertions. -/
def stripAllFuel (pat : List Char) : Nat → List Char → List Char
  | _, [] => []
  | 0, l => l
  | fuel + 1, c :: rest =>
      if pat ≠ [] ∧ leadsWith pat (c :: rest) = true then
        stripAllFuel pat fuel (rest.drop (pat.length - 1))
      else
        c :: stripAllFuel pat fuel rest

/-- Python's `re.sub(pat, '', s)` for a literal pattern: remove every
non-overlapping occurrence of `pat` from `s`. -/
def strRemoveAll (s pat : String) : String :=
  ⟨stripAllFuel pat.data s.data.length s.data⟩

/-- ASCII lowercasing of one character. -/
def lowerChar (c : Char) : Char :=
  if 65 ≤ c.toNat ∧ c.toNat ≤ 90 then Char.ofNat (c.toNat + 32) else c

/-- Python's `s.lower()` (ASCII; the assembly labels compared by the
pipeline are ASCII). -/
def strToLower (s : String) : String :=
  ⟨s.data.map lowerChar⟩

/- ## Sample-QC filtering (`ref_filtering`, src lines 15–31) -/

/-- A reference-matrix column: sample id `s` and the sample's
`qc_metrics_filters` set (names of failed quality metrics). -/
structure Sample where
  s : String
  qc_metrics_filters : List String
deriving DecidableEq

/-- A reference-matrix row as seen by the QC stage: the gnomAD per-variant
`filters` set (empty means the variant passed variant QC). -/
structure RefRow where
  varKey : Locus × List String
  filters : List String
deriving DecidableEq

/-- The dense reference matrix read by `ref_filtering`:
`sampleFilterFields` is the field-name schema of the `sample_filters`
struct (the source inspects it with `set(mt['sample_filters'])`). -/
structure RefMatrix where
  sampleFilterFields : List String
  rows : List RefRow
  cols : List Sample
deriving DecidableEq

/-- Source line 17: the failure categories, obtained by taking every
`sample_filters` field whose name starts with `fail_` and deleting the
`fail_` substring (`re.sub('fail_', '', x)` removes every occurrence). -/
def bad_sample_filters (mt : RefMatrix) : List String :=
  (mt.sampleFilterFields.filter (fun x => strStartsWith x "fail_")).map
    (fun x => strRemoveAll x "fail_")

/-- Output of the QC stage: the filtered rows and columns. -/
structure RefFilteringOut where
  rows : List RefRow
  cols : List Sample
deriving DecidableEq

/-- Source lines 15–31 (`ref_filtering`), as the pure filtering it performs:
keep samples whose `qc_metrics_filters` minus `bad_sample_filters` is empty,
keep variants whose `filters` set is empty, keep only samples present in the
unrelated-sample table, then drop samples listed as PCA outliers. -/
def ref_filtering (mt : RefMatrix) (unrel : List String) (outliers : List String) :
    RefFilteringOut :=
  let qcCols := mt.cols.filter (fun c =>
    decide ((c.qc_metrics_filters.filter
      (fun m => decide (¬ m ∈ bad_sample_filters mt))).length = 0))
  let rowsF := mt.rows.filter (fun r => decide (r.filters.length = 0))
  let colsU := qcCols.filter (fun c => decide (c.s ∈ unrel))
  let colsO := colsU.filter (fun c => decide (¬ c.s ∈ outliers))
  ⟨rowsF, colsO⟩

/- ## Variant intersection (`intersect_target_ref`, src lines 34–54) -/

/-- An entry of the target SNP panel: chromosome, position, reference and
alternate allele, as imported from the white-space delimited table. -/
structure SnpEntry where
  chr : String
  pos : Nat
  ref : String
  alt : String
deriving DecidableEq

/-- Source lines 36–38: the panel keyed for a GRCh38 panel —
`locus = (chr, pos)` under GRCh38 with `alleles = [ref, alt]`. -/
def panelKeys38 (snp_list : List SnpEntry) : List (Locus × List String) :=
  snp_list.map (fun e => (⟨e.chr, e.pos⟩, [e.ref, e.alt]))

/-- Source lines 41–49: the panel keyed for a GRCh37 panel — each entry's
locus is lifted to GRCh38 through the liftover chain `lift`; entries whose
locus does not lift (`lift` returns `none`) are dropped; lifted entries keep
their original `[ref, alt]` alleles. -/
def liftedPanelKeys (lift : Locus → Option Locus) (snp_list : List SnpEntry) :
    List (Locus × List String) :=
  snp_list.filterMap (fun e =>
    (lift ⟨e.chr, e.pos⟩).map (fun l => (l, [e.ref, e.alt])))

/-- Error channel for the pipeline.  The spec names these error kinds; the
embedding carries them so that claims about failure are statable even where
the source never raises. -/
inductive PipelineErr where
  | InvalidAssembly
  | DegenerateInput
deriving DecidableEq

/-- Source lines 34–54 (`intersect_target_ref`): dispatch on the lowercased
assembly label.  For `grch38` the matrix is filtered to rows whose key is a
GRCh38 panel key; for `grch37` to rows whose key is a lifted panel key.
The source's `if`/`elif` has no `else` branch: any other label falls
through to the repartition/checkpoint, so the matrix is returned
unfiltered and no error is raised. -/
def intersect_target_ref (lift : Locus → Option Locus) (mt : List MatrixRow)
    (snp_list : List SnpEntry) (grch37_or_grch38 : String) :
    Except PipelineErr (List MatrixRow) :=
  if strToLower grch37_or_grch38 = "grch38" then
    .ok (mt.filter (fun r => decide (rowKey r ∈ panelKeys38 snp_list)))
  else if strToLower grch37_or_grch38 = "grch37" then
    .ok (mt.filter (fun r => decide (rowKey r ∈ liftedPanelKeys lift snp_list)))
  else
    .ok mt

/- ## Allele frequencies (`hl.variant_qc`) and the frequency filter
   (`ld_prune_filter`, src lines 57–64) -/

/-- The alternate-allele counts of the non-missing calls of a row. -/
def calledGTs (calls : List GTCall) : List Nat :=
  (calls.filterMap id).map Fin.val

/-- The number of non-missing calls. -/
def calledCount (calls : List GTCall) : Nat :=
  (calls.filterMap id).length

/-- Total alternate-allele count over the non-missing calls (Hail's
`AC[1]`). -/
def altAlleleCount (calls : List GTCall) : Nat :=
  (calledGTs calls).sum

/-- Total reference-allele count over the non-missing calls (Hail's
`AC[0]`): each diploid call contributes `2 - n_alt_alleles`. -/
def refAlleleCount (calls : List GTCall) : Nat :=
  ((calledGTs calls).map (fun g => 2 - g)).sum

/-- Hail's `variant_qc.AF[0]`: the reference-allele frequency, reference
allele count over allele number `AN = 2 · (number of called genotypes)`.
(When every call is missing, `ℚ` division by zero yields `0`, mirroring
that Hail's NaN frequency fails every strict comparison.) -/
def refAF (calls : List GTCall) : ℚ :=
  (refAlleleCount calls : ℚ) / (2 * calledCount calls)

/-- Hail's `variant_qc.AF[1]`: the alternate-allele frequency. -/
def altAF (calls : List GTCall) : ℚ :=
  (altAlleleCount calls : ℚ) / (2 * calledCount calls)

/-- Source line 60: the frequency-filter predicate
`(mt.variant_qc.AF[0] > 0.001) & (mt.variant_qc.AF[0] < 0.999)`.
Note the source tests `AF[0]`, the reference-allele frequency. -/
def freqOK (r : MatrixRow) : Prop :=
  (1 : ℚ) / 1000 < refAF r.calls ∧ refAF r.calls < 999 / 1000

instance (r : MatrixRow) : Decidable (freqOK r) := by
  unfold freqOK; infer_instance

/- ## LD pruning (`hl.ld_prune`, called at src line 63) -/

/-- Dosage pairs of two variants over the samples where both calls are
non-missing (pairwise-complete handling of missing genotypes). -/
def dosagePairs (xs ys : List GTCall) : List (ℕ × ℕ) :=
  (xs.zip ys).filterMap (fun p =>
    match p with
    | (some a, some b) => some (a.val, b.val)
    | _ => none)

/-- Number of pairwise-complete sample pairs. -/
def pairCount (xs ys : List GTCall) : ℕ := (dosagePairs xs ys).length

/-- Sum of the first variant's dosages over the pairwise-complete pairs. -/
def sumX (xs ys : List GTCall) : ℕ := ((dosagePairs xs ys).map Prod.fst).sum

/-- Sum of the second variant's dosages over the pairwise-complete pairs. -/
def sumY (xs ys : List GTCall) : ℕ := ((dosagePairs xs ys).map Prod.snd).sum

/-- Sum of squared first dosages. -/
def sumXX (xs ys : List GTCall) : ℕ :=
  ((dosagePairs xs ys).map (fun p => p.1 * p.1)).sum

/-- Sum of squared second dosages. -/
def sumYY (xs ys : List GTCall) : ℕ :=
  ((dosagePairs xs ys).map (fun p => p.2 * p.2)).sum

/-- Sum of dosage products. -/
def sumXY (xs ys : List GTCall) : ℕ :=
  ((dosagePairs xs ys).map (fun p => p.1 * p.2)).sum

/-- Squared Pearson correlation (LD r²) of the genotype dosages of two
variants across samples, computed pairwise-complete:
`(n·Σxy − Σx·Σy)² / ((n·Σx² − (Σx)²) · (n·Σy² − (Σy)²))` over `ℚ`.
(When the pair list is degenerate the `ℚ` convention `x / 0 = 0`
applies.) -/
def r2 (xs ys : List GTCall) : ℚ :=
  ((pairCount xs ys : ℚ) * sumXY xs ys - sumX xs ys * sumY xs ys) ^ 2 /
    (((pairCount xs ys : ℚ) * sumXX xs ys - sumX xs ys * sumX xs ys) *
      ((pairCount xs ys : ℚ) * sumYY xs ys - sumY xs ys * sumY xs ys))

/-- Two variants conflict for the pruner when they lie on the same contig
within `w` base pairs and their LD r² is at or above the threshold `t`. -/
def conflictB (w : Nat) (t : ℚ) (v u : MatrixRow) : Bool :=
  decide (v.locus.contig = u.locus.contig) &&
    decide (Nat.dist v.locus.position u.locus.position ≤ w) &&
    decide (t ≤ r2 v.calls u.calls)

/-- Modelled from the spec: the greedy selection loop of the LD pruner
(`hl.ld_prune` is external to the repository).  Walking the candidate list
in order, retain the current variant and discard every later candidate that
conflicts with it.  The `fuel` argument is only a structural-recursion
bound; `fuel = length` always suffices since filtering never grows the
list. -/
def greedyPruneFuel (w : Nat) (t : ℚ) : Nat → List MatrixRow → List MatrixRow
  | _, [] => []
  | 0, _ :: _ => []
  | fuel + 1, v :: rest =>
      v :: greedyPruneFuel w t fuel (rest.filter (fun u => !(conflictB w t v u)))

/-- Modelled from the spec: the retained variant set of `hl.ld_prune`.
The spec leaves the tie-break order open ("order of iteration determines
which of a conflicting pair survives"); the model iterates in list order. -/
def greedyPrune (w : Nat) (t : ℚ) (l : List MatrixRow) : List MatrixRow :=
  greedyPruneFuel w t l.length l

/-- Source lines 57–64 (`ld_prune_filter`): apply the frequency filter,
run LD pruning (window 500000 bp, r² threshold 0.8) on the filtered matrix,
then keep the filtered matrix's rows whose row key appears in the pruned
variant table (`filter_rows(hl.is_defined(...))`). -/
def ld_prune_filter (mt : List MatrixRow) : List MatrixRow :=
  let mt_filt := mt.filter (fun r => decide (freqOK r))
  let kept := greedyPrune 500000 (8 / 10) mt_filt
  mt_filt.filter (fun r => decide (rowKey r ∈ kept.map rowKey))

/- ## Checkpoint and write semantics (src lines 20, 31, 53, 64, 82–99) -/

/-- The storage substrate, as an association list from output paths to
persisted artifacts (artifacts abstracted as `Nat` ids; lookup takes the
most recent binding). -/
abbrev Store := List (String × Nat)

/-- Persist an artifact at a path. -/
def storeSet (st : Store) (path : String) (v : Nat) : Store :=
  (path, v) :: st

/-- Failure of a checkpoint or write against an already-occupied path. -/
inductive CkptErr where
  | PathExists
deriving DecidableEq

/-- Hail's `checkpoint(path, overwrite, _read_if_exists)`: when the path
exists and `_read_if_exists` is set, the existing artifact is read back and
nothing is written; otherwise the freshly computed artifact is written
(failing on an existing path unless `overwrite` is set) and returned. -/
def hailCheckpoint (st : Store) (path : String) (overwrite rie : Bool) (v : Nat) :
    Except CkptErr (Nat × Store) :=
  match st.lookup path with
  | some old =>
      if rie then .ok (old, st)
      else if overwrite then .ok (v, storeSet st path v)
      else .error .PathExists
  | none => .ok (v, storeSet st path v)

/-- Hail's `write(path, overwrite)`: persist the artifact, failing on an
existing path unless `overwrite` is set; an existing artifact is never
read back. -/
def hailWrite (st : Store) (path : String) (overwrite : Bool) (v : Nat) :
    Except CkptErr Store :=
  match st.lookup path with
  | some _ => if overwrite then .ok (storeSet st path v) else .error .PathExists
  | none => .ok (storeSet st path v)

/-- Source line 20: the QC stage's intermediate pass-samples checkpoint,
`mt_filt.checkpoint(pass_mt, overwrite=False, _read_if_exists=True)`.
The stage's `overwrite` flag is in scope but is not forwarded — the call
hardcodes `overwrite=False` and `_read_if_exists=True`. -/
def ref_filtering_pass_checkpoint (st : Store) (pass_mt : String)
    (overwrite : Bool) (computed : Nat) : Except CkptErr (Nat × Store) :=
  hailCheckpoint st pass_mt false true computed

/-- Source line 53: the intersection stage's checkpoint,
`mt.checkpoint(intersect_out, overwrite=overwrite, _read_if_exists=not overwrite)`. -/
def intersect_checkpoint (st : Store) (intersect_out : String)
    (overwrite : Bool) (computed : Nat) : Except CkptErr (Nat × Store) :=
  hailCheckpoint st intersect_out overwrite (!overwrite) computed

/- ## PCA (`run_pca`, src lines 67–99, engine `hl.hwe_normalized_pca`) -/

/-- The pruned matrix as read by the PCA stage: the sample (column) ids and
the variant rows. -/
structure PCAInput where
  samples : List String
  rows : List MatrixRow
deriving DecidableEq

/-- A variant has zero variance in genotype dosage when
`n · Σx² = (Σx)²` over its non-missing dosages (this also covers a variant
with no non-missing call). -/
def zeroVariance (r : MatrixRow) : Bool :=
  let xs := calledGTs r.calls
  decide (xs.length * (xs.map (fun g => g * g)).sum = (xs.sum) * (xs.sum))

/-- A PCA result: eigenvalues, per-sample score vectors and per-variant
loading vectors. -/
structure PCAResult where
  eigenvalues : List ℚ
  scores : List (String × List ℚ)
  loadings : List ((Locus × List String) × List ℚ)
deriving DecidableEq

/-- Modelled from the spec: Hail's `hwe_normalized_pca` engine (external to
the repository).  It fails with `DegenerateInput` when the matrix has fewer
samples than `k` or some variant has zero dosage variance; otherwise it
returns eigenvalues and score/loading vectors all of length `k`.  The
numeric content of the decomposition (defined only up to sign and rotation,
per the spec) is abstracted to zero vectors; only the shape and the error
behaviour are modelled. -/
def hwe_normalized_pca (k : Nat) (inp : PCAInput) : Except PipelineErr PCAResult :=
  if inp.samples.length < k then .error .DegenerateInput
  else if inp.rows.any zeroVariance then .error .DegenerateInput
  else
    .ok { eigenvalues := List.replicate k 0
          scores := inp.samples.map (fun s => (s, List.replicate k (0 : ℚ)))
          loadings := inp.rows.map (fun r => ((r.locus, r.alleles), List.replicate k (0 : ℚ))) }

/-- Source line 79: `pca_af = hl.agg.mean(mt.GT.n_alt_alleles()) / 2`,
the mean alternate-allele count over non-missing calls, halved. -/
def pca_af (calls : List GTCall) : ℚ :=
  ((altAlleleCount calls : ℚ) / (calledCount calls)) / 2

/-- Hail's `variant_str(locus, alleles)`: the canonical
`contig:position:ref:alt` string. -/
def variant_str (l : Locus) (alleles : List String) : String :=
  l.contig ++ ":" ++ toString l.position ++ ":" ++ String.intercalate ":" alleles

/-- Source lines 85, 92: the principal-component column names `PC1..PC20`,
built as `PC{i}` for `i in range(1, 21)`. -/
def pcColumns : List String :=
  (List.range' 1 20).map (fun i => "PC" ++ toString i)

/-- A row of the PLINK-format loadings export (src lines 91–93). -/
structure PlinkLoadingRow where
  ID : String
  ALT : String
  PCs : List ℚ
deriving DecidableEq

/-- A row of the companion allele-frequency export (src lines 94–95);
`idHash` is the column printed under the header `#ID`. -/
structure AfreqRow where
  idHash : String
  REF : String
  ALT : String
  ALT1_FREQ : ℚ
deriving DecidableEq

/-- Everything the PCA stage exports. -/
structure PCAOutput where
  result : PCAResult
  scoresCols : List String
  scoresRows : List (String × List ℚ)
  plinkLoadingsCols : List String
  plinkLoadings : List PlinkLoadingRow
  afreqCols : List String
  afreqRows : List AfreqRow
deriving DecidableEq

/-- Source lines 67–99 (`run_pca`): run the (spec-modelled) PCA engine with
`k = 20`, transmute the scores table to columns `s, PC1..PC20`, and build
the PLINK loadings table (`ID` = canonical variant string, `ALT`, `PC1..PC20`)
and the companion frequency table (`#ID`, `REF`, `ALT`, `ALT1_FREQ` = `pca_af`). -/
def run_pca (inp : PCAInput) : Except PipelineErr PCAOutput :=
  match hwe_normalized_pca 20 inp with
  | .error e => .error e
  | .ok res =>
      .ok { result := res
            scoresCols := "s" :: pcColumns
            scoresRows := res.scores
            plinkLoadingsCols := "ID" :: "ALT" :: pcColumns
            plinkLoadings := res.loadings.map (fun p =>
              { ID := variant_str p.1.1 p.1.2, ALT := p.1.2.getD 1 "", PCs := p.2 })
            afreqCols := ["#ID", "REF", "ALT", "ALT1_FREQ"]
            afreqRows := inp.rows.map (fun r =>
              { idHash := variant_str r.locus r.alleles
                REF := r.alleles.getD 0 ""
                ALT := r.alleles.getD 1 ""
                ALT1_FREQ := pca_af r.calls }) }

/- ## Concrete inputs used by the witnesses -/

/-- A single biallelic matrix row used by concrete evaluations. -/
def demoRow : MatrixRow :=
  ⟨⟨"chr1", 100⟩, ["A", "G"], [some 0, some 1]⟩

/-- A small reference matrix: the `sample_filters` schema carries one
`fail_`-prefixed field; sample `S1` fails a non-exempt metric, `S2` is
clean, `S3` is clean but listed as a PCA outlier. -/
def demoRefMatrix : RefMatrix :=
  { sampleFilterFields := ["fail_n_snp", "qc_metrics_filters", "sex_imputation"]
    rows := [⟨(⟨"chr1", 100⟩, ["A", "G"]), []⟩]
    cols := [⟨"S1", ["call_rate"]⟩, ⟨"S2", []⟩, ⟨"S3", []⟩] }

/-- First LD-demo variant: alternate-allele frequency 1/4, dosages
uncorrelated with `ldDemoRowB`. -/
def ldDemoRowA : MatrixRow :=
  ⟨⟨"chr1", 100⟩, ["A", "G"], [some 0, some 1, some 1, some 0]⟩

/-- Second LD-demo variant, 100 bp from the first on the same contig. -/
def ldDemoRowB : MatrixRow :=
  ⟨⟨"chr1", 200⟩, ["C", "T"], [some 1, some 0, some 1, some 0]⟩

/-- A two-variant matrix on which the LD pruner retains both variants. -/
def ldDemoMt : List MatrixRow := [ldDemoRowA, ldDemoRowB]

/-- Twenty sample ids, enough for the PCA engine's `k = 20`. -/
def demoSamples : List String :=
  (List.range 20).map (fun i => "s" ++ toString i)

/-- A non-degenerate PCA input: twenty samples and one variant whose
dosages have nonzero variance. -/
def demoPCAInput : PCAInput :=
  { samples := demoSamples
    rows := [demoRow] }

/-- The output `run_pca` produces on `demoPCAInput`. -/
def demoPCAOut : PCAOutput :=
  { result :=
      { eigenvalues := List.replicate 20 (0 : ℚ)
        scores := demoSamples.map (fun s => (s, List.replicate 20 (0 : ℚ)))
        loadings := [((⟨"chr1", 100⟩, ["A", "G"]), List.replicate 20 (0 : ℚ))] }
    scoresCols := "s" :: pcColumns
    scoresRows := demoSamples.map (fun s => (s, List.replicate 20 (0 : ℚ)))
    plinkLoadingsCols := "ID" :: "ALT" :: pcColumns
    plinkLoadings := [{ ID := "chr1:100:A:G", ALT := "G", PCs := List.replicate 20 (0 : ℚ) }]
    afreqCols := ["#ID", "REF", "ALT", "ALT1_FREQ"]
    afreqRows := [{ idHash := "chr1:100:A:G", REF := "A", ALT := "G"
                    ALT1_FREQ := pca_af demoRow.calls }] }

/- ## C1: behaviour of the intersection stage on an unrecognized assembly label -/

/-- C1 counterexample: on the unrecognized assembly label `"hg19"` the
intersection stage does not fail — it returns an output matrix, namely the
input matrix unfiltered (here a matrix whose single row matches no entry of
the empty target panel).  This refutes the claim that an unmatched label
makes the stage fail with an InvalidAssembly error rather than produce an
output matrix: the source's `if`/`elif` on the label has no `else` branch. -/
theorem intersect_invalid_label_counterexample :
    intersect_target_ref (fun _ => none) [demoRow] [] "hg19" = .ok [demoRow] :=
  rfl

/-- C1 (amended): for every assembly label that lowercases to neither
recognized value, the intersection stage raises no error and passes the
matrix through unchanged — no variant filtering is applied. -/
theorem intersect_unrecognized_label_passthrough
    (lift : Locus → Option Locus) (mt : List MatrixRow) (snp_list : List SnpEntry)
    (label : String)
    (h38 : strToLower label ≠ "grch38") (h37 : strToLower label ≠ "grch37") :
    intersect_target_ref lift mt snp_list label = .ok mt := by
  simp [intersect_target_ref, h38, h37]

/-- Witness for the amended C1 at the concrete label `"hg19"`. -/
theorem intersect_unrecognized_label_passthrough_witness :
    strToLower "hg19" ≠ "grch38" ∧ strToLower "hg19" ≠ "grch37" ∧
    intersect_target_ref (fun _ => none) [demoRow] [] "hg19" = .ok [demoRow] :=
  ⟨by decide, by decide,
    intersect_unrecognized_label_passthrough (fun _ => none) [demoRow] [] "hg19"
      (by decide) (by decide)⟩

/- ## C9: case-insensitivity of the assembly-label comparison -/

/-- C9: the intersection stage compares the assembly label lowercased, so
any two labels equal after lowercasing produce identical output on the
same inputs. -/
theorem intersect_label_case_insensitive
    (lift : Locus → Option Locus) (mt : List MatrixRow) (snp_list : List SnpEntry)
    (a b : String) (h : strToLower a = strToLower b) :
    intersect_target_ref lift mt snp_list a = intersect_target_ref lift mt snp_list b := by
  simp only [intersect_target_ref, h]

/-- Witness for C9 at the concrete label pair `"GRCh38"` / `"GRCH38"`. -/
theorem intersect_label_case_insensitive_witness :
    strToLower "GRCh38" = strToLower "GRCH38" ∧
    intersect_target_ref (fun _ => none) [demoRow] [] "GRCh38" =
      intersect_target_ref (fun _ => none) [demoRow] [] "GRCH38" :=
  ⟨by decide,
    intersect_label_case_insensitive (fun _ => none) [demoRow] [] "GRCh38" "GRCH38" (by decide)⟩

/- ## C2: samples retained by the QC stage -/

/-- C2: every sample retained by `ref_filtering` has an empty
quality-metric failure set once the exempted (`fail_`-derived) categories
are removed, belongs to the unrelated-sample set, and is absent from the
outlier list. -/
theorem ref_filtering_retained_samples
    (mt : RefMatrix) (unrel outliers : List String) (c : Sample)
    (hc : c ∈ (ref_filtering mt unrel outliers).cols) :
    c.qc_metrics_filters.filter (fun m => decide (¬ m ∈ bad_sample_filters mt)) = [] ∧
    c.s ∈ unrel ∧ ¬ c.s ∈ outliers := by
  simp only [ref_filtering, List.mem_filter, decide_eq_true_eq] at hc
  obtain ⟨⟨⟨_, hqc⟩, hunrel⟩, hout⟩ := hc
  exact ⟨List.length_eq_zero.mp hqc, hunrel, hout⟩

/-- Witness for C2: on the demo matrix the clean unrelated sample `S2` is
retained and satisfies all three conditions. -/
theorem ref_filtering_retained_samples_witness :
    Sample.mk "S2" [] ∈ (ref_filtering demoRefMatrix ["S2"] ["S3"]).cols ∧
    ((Sample.mk "S2" []).qc_metrics_filters.filter
      (fun m => decide (¬ m ∈ bad_sample_filters demoRefMatrix)) = [] ∧
    (Sample.mk "S2" []).s ∈ ["S2"] ∧ ¬ (Sample.mk "S2" []).s ∈ ["S3"]) :=
  ⟨by decide,
    ref_filtering_retained_samples demoRefMatrix ["S2"] ["S3"] (Sample.mk "S2" []) (by decide)⟩

/- ## C6: checkpoint/overwrite semantics -/

/-- C6 counterexample: the QC stage's intermediate pass-samples checkpoint
hardcodes `overwrite=False, _read_if_exists=True` (src line 20), so with
the overwrite flag SET and a stale artifact `7` already at the path, the
stage still returns the stale artifact and leaves the store unchanged
instead of recomputing and replacing it with the new artifact `42`. -/
theorem ref_filtering_checkpoint_ignores_overwrite :
    ref_filtering_pass_checkpoint [("pass.mt", 7)] "pass.mt" true 42 =
      .ok (7, [("pass.mt", 7)]) :=
  rfl

/-- C6 (amended): the intersection stage's checkpoint obeys the overwrite
flag (unset → reuse an existing artifact, set → recompute and replace;
absent → compute either way), but the QC stage's intermediate pass-samples
checkpoint reuses an existing artifact regardless of the flag, and the
plain `write` calls of the other stages never reuse: they replace when the
flag is set and fail on an existing path when it is unset. -/
theorem checkpoint_flag_semantics
    (st : Store) (p q : String) (v old : Nat)
    (h : st.lookup p = some old) (hq : st.lookup q = none) :
    intersect_checkpoint st p false v = .ok (old, st) ∧
    intersect_checkpoint st p true v = .ok (v, storeSet st p v) ∧
    intersect_checkpoint st q false v = .ok (v, storeSet st q v) ∧
    intersect_checkpoint st q true v = .ok (v, storeSet st q v) ∧
    ref_filtering_pass_checkpoint st p false v = .ok (old, st) ∧
    ref_filtering_pass_checkpoint st p true v = .ok (old, st) ∧
    hailWrite st p false v = .error .PathExists ∧
    hailWrite st p true v = .ok (storeSet st p v) ∧
    hailWrite st q false v = .ok (storeSet st q v) := by
  simp [intersect_checkpoint, ref_filtering_pass_checkpoint, hailCheckpoint, hailWrite, h, hq]

/-- Witness for the amended C6 on a one-entry store. -/
theorem checkpoint_flag_semantics_witness :
    (([("a.mt", 7)] : Store).lookup "a.mt" = some 7 ∧
      ([("a.mt", 7)] : Store).lookup "b.mt" = none) ∧
    intersect_checkpoint [("a.mt", 7)] "a.mt" false 42 = .ok (7, [("a.mt", 7)]) ∧
    intersect_checkpoint [("a.mt", 7)] "a.mt" true 42 =
      .ok (42, storeSet [("a.mt", 7)] "a.mt" 42) ∧
    hailWrite [("a.mt", 7)] "a.mt" false 42 = .error .PathExists :=
  ⟨⟨by decide, by decide⟩,
    (checkpoint_flag_semantics [("a.mt", 7)] "a.mt" "b.mt" 42 7 (by decide) (by decide)).1,
    (checkpoint_flag_semantics [("a.mt", 7)] "a.mt" "b.mt" 42 7 (by decide) (by decide)).2.1,
    (checkpoint_flag_semantics [("a.mt", 7)] "a.mt" "b.mt" 42 7 (by decide) (by decide)).2.2.2.2.2.2.1⟩

/- ## C7: degenerate-input failure of the PCA stage -/

/-- C7 (spec-modelled engine): the PCA stage fails with `DegenerateInput`
whenever its input has fewer samples than `k = 20` or some variant has
zero dosage variance, independently of any upstream filtering. -/
theorem run_pca_degenerate
    (inp : PCAInput)
    (h : inp.samples.length < 20 ∨ ∃ r ∈ inp.rows, zeroVariance r = true) :
    run_pca inp = .error .DegenerateInput := by
  unfold run_pca hwe_normalized_pca
  rcases h with hlt | ⟨r, hr, hz⟩
  · rw [if_pos hlt]
  · rcases Nat.lt_or_ge inp.samples.length 20 with hlt | hge
    · rw [if_pos hlt]
    · rw [if_neg (Nat.not_lt.mpr hge), if_pos (List.any_eq_true.mpr ⟨r, hr, hz⟩)]

/-- Witness for C7 at a one-sample input. -/
theorem run_pca_degenerate_witness :
    (PCAInput.mk ["a"] []).samples.length < 20 ∧
    run_pca (PCAInput.mk ["a"] []) = .error .DegenerateInput :=
  ⟨by decide, run_pca_degenerate (PCAInput.mk ["a"] []) (Or.inl (by decide))⟩

/- ## C10: the derived pca_af lies in [0, 1] -/

/-- Every alternate-allele dosage in a call list is at most 2. -/
theorem calledGTs_le_two (calls : List GTCall) : ∀ g ∈ calledGTs calls, g ≤ 2 := by
  intro g hg
  obtain ⟨x, _, rfl⟩ := List.mem_map.mp hg
  exact Nat.lt_succ_iff.mp x.isLt

/-- The alternate-allele count is bounded by twice the called-genotype
count. -/
theorem altAlleleCount_le (calls : List GTCall) :
    altAlleleCount calls ≤ 2 * calledCount calls := by
  have h := List.sum_le_card_nsmul (calledGTs calls) 2 (calledGTs_le_two calls)
  have hlen : (calledGTs calls).length = calledCount calls := List.length_map _ _
  simpa [altAlleleCount, calledCount, hlen, smul_eq_mul, Nat.mul_comm] using h

/-- C10: for a variant with at least one non-missing genotype call, the
`pca_af` value derived by the PCA stage (mean alternate-allele count over
non-missing calls, halved) lies in the closed interval [0, 1]. -/
theorem pca_af_in_unit_interval (calls : List GTCall) (h : 0 < calledCount calls) :
    0 ≤ pca_af calls ∧ pca_af calls ≤ 1 := by
  have hle : (altAlleleCount calls : ℚ) ≤ 2 * calledCount calls := by
    exact_mod_cast altAlleleCount_le calls
  have hc : (0 : ℚ) < calledCount calls := by exact_mod_cast h
  constructor
  · unfold pca_af
    positivity
  · unfold pca_af
    rw [div_div]
    apply div_le_one_of_le₀
    · linarith
    · positivity

/-- Witness for C10 at a concrete call list with one missing call. -/
theorem pca_af_in_unit_interval_witness :
    0 < calledCount [some 1, none, some 2] ∧
    (0 ≤ pca_af [some 1, none, some 2] ∧ pca_af [some 1, none, some 2] ≤ 1) :=
  ⟨by decide, pca_af_in_unit_interval [some 1, none, some 2] (by decide)⟩

/- ## C3: the intersection stage is a semi-join -/

/-- C3: on the recognized labels the intersection stage keeps exactly the
matrix rows whose `(locus, alleles)` key occurs among the panel keys —
built directly for a GRCh38 panel, or as (lifted locus, original
`[ref, alt]`) for a GRCh37 panel with unliftable entries dropped without
error — so matrix rows with no panel match are excluded and panel entries
with no matrix match impose nothing. -/
theorem intersect_semijoin
    (lift : Locus → Option Locus) (mt : List MatrixRow) (snp_list : List SnpEntry) :
    intersect_target_ref lift mt snp_list "GRCh38" =
      .ok (mt.filter (fun r => decide (rowKey r ∈ panelKeys38 snp_list))) ∧
    intersect_target_ref lift mt snp_list "GRCh37" =
      .ok (mt.filter (fun r => decide (rowKey r ∈ liftedPanelKeys lift snp_list))) ∧
    (∀ r : MatrixRow,
      r ∈ mt.filter (fun r => decide (rowKey r ∈ panelKeys38 snp_list)) ↔
        r ∈ mt ∧ rowKey r ∈ panelKeys38 snp_list) ∧
    (∀ r : MatrixRow,
      r ∈ mt.filter (fun r => decide (rowKey r ∈ liftedPanelKeys lift snp_list)) ↔
        r ∈ mt ∧ rowKey r ∈ liftedPanelKeys lift snp_list) ∧
    (∀ k : Locus × List String, k ∈ panelKeys38 snp_list ↔
      ∃ e ∈ snp_list, k = (⟨e.chr, e.pos⟩, [e.ref, e.alt])) ∧
    (∀ k : Locus × List String, k ∈ liftedPanelKeys lift snp_list ↔
      ∃ e ∈ snp_list, lift ⟨e.chr, e.pos⟩ = some k.1 ∧ k.2 = [e.ref, e.alt]) := by
  refine ⟨rfl, rfl, ?_, ?_, ?_, ?_⟩
  · intro r
    simp [List.mem_filter]
  · intro r
    simp [List.mem_filter]
  · intro k
    simp only [panelKeys38, List.mem_map]
    constructor
    · rintro ⟨e, he, rfl⟩
      exact ⟨e, he, rfl⟩
    · rintro ⟨e, he, rfl⟩
      exact ⟨e, he, rfl⟩
  · intro k
    obtain ⟨k1, k2⟩ := k
    simp only [liftedPanelKeys, List.mem_filterMap, Option.map_eq_some']
    constructor
    · rintro ⟨e, he, l, hl, heq⟩
      obtain ⟨rfl, rfl⟩ := Prod.mk.injEq .. ▸ heq
      exact ⟨e, he, by simpa using hl, rfl⟩
    · rintro ⟨e, he, hl, rfl⟩
      exact ⟨e, he, k1, by simpa using hl, rfl⟩

/- ## C8: shape and column names of the PCA output -/

/-- C8: every successful PCA run yields eigenvalues, per-sample score
vectors and per-variant loading vectors of length exactly `k = 20`; the
scores table's non-key columns are `PC1..PC20`; the PLINK loadings file
has columns `ID` (the canonical variant string), `ALT`, `PC1..PC20`; and
the companion frequency file has columns `#ID`, `REF`, `ALT`, `ALT1_FREQ`.
(The vector lengths come from the spec-modelled PCA engine; the column
construction is embedded from src lines 85 and 91–95.) -/
theorem run_pca_output_shape (inp : PCAInput) (out : PCAOutput)
    (h : run_pca inp = .ok out) :
    out.result.eigenvalues.length = 20 ∧
    (∀ p ∈ out.result.scores, p.2.length = 20) ∧
    (∀ p ∈ out.result.loadings, p.2.length = 20) ∧
    out.scoresCols = "s" :: pcColumns ∧
    out.plinkLoadingsCols = "ID" :: "ALT" :: pcColumns ∧
    out.afreqCols = ["#ID", "REF", "ALT", "ALT1_FREQ"] ∧
    pcColumns = ["PC1", "PC2", "PC3", "PC4", "PC5", "PC6", "PC7", "PC8", "PC9",
      "PC10", "PC11", "PC12", "PC13", "PC14", "PC15", "PC16", "PC17", "PC18",
      "PC19", "PC20"] ∧
    out.plinkLoadings = out.result.loadings.map (fun p =>
      { ID := variant_str p.1.1 p.1.2, ALT := p.1.2.getD 1 "", PCs := p.2 }) := by
  unfold run_pca at h
  cases hq : hwe_normalized_pca 20 inp with
  | error e =>
      rw [hq] at h
      exact Except.noConfusion h
  | ok res =>
      rw [hq] at h
      injection h with h
      subst h
      unfold hwe_normalized_pca at hq
      split at hq
      · exact Except.noConfusion hq
      · split at hq
        · exact Except.noConfusion hq
        · injection hq with hq
          subst hq
          refine ⟨by simp, ?_, ?_, rfl, rfl, rfl, by decide, rfl⟩
          · intro p hp
            obtain ⟨s, _, rfl⟩ := List.mem_map.mp hp
            simp
          · intro p hp
            obtain ⟨r, _, rfl⟩ := List.mem_map.mp hp
            simp

/-- Witness for C8 on the 20-sample demo input. -/
theorem run_pca_output_shape_witness :
    run_pca demoPCAInput = .ok demoPCAOut ∧
    demoPCAOut.result.eigenvalues.length = 20 ∧
    demoPCAOut.scoresCols = "s" :: pcColumns ∧
    demoPCAOut.afreqCols = ["#ID", "REF", "ALT", "ALT1_FREQ"] :=
  ⟨rfl,
    (run_pca_output_shape demoPCAInput demoPCAOut rfl).1,
    (run_pca_output_shape demoPCAInput demoPCAOut rfl).2.2.2.1,
    (run_pca_output_shape demoPCAInput demoPCAOut rfl).2.2.2.2.2.1⟩

/- ## C4: allele-frequency bounds after the LD-pruning stage -/

/-- For a list of dosages each at most 2, the complementary sums add to
twice the list length. -/
theorem sum_two_sub_add_sum :
    ∀ (l : List Nat), (∀ g ∈ l, g ≤ 2) →
      (l.map (fun g => 2 - g)).sum + l.sum = 2 * l.length
  | [], _ => by simp
  | g :: t, hb => by
      have hg : g ≤ 2 := hb g (List.mem_cons_self g t)
      have ht := sum_two_sub_add_sum t (fun x hx => hb x (List.mem_cons_of_mem g hx))
      simp only [List.map_cons, List.sum_cons, List.length_cons]
      omega

/-- Reference- and alternate-allele counts sum to the allele number
`2 · calledCount`. -/
theorem refAlleleCount_add_altAlleleCount (calls : List GTCall) :
    refAlleleCount calls + altAlleleCount calls = 2 * calledCount calls := by
  have h := sum_two_sub_add_sum (calledGTs calls) (calledGTs_le_two calls)
  have hlen : (calledGTs calls).length = calledCount calls := List.length_map _ _
  rw [hlen] at h
  unfold refAlleleCount altAlleleCount
  exact h

/-- C4: every variant retained by the LD-pruning stage has alternate-allele
frequency strictly inside (0.001, 0.999).  The source filters on the
reference-allele frequency `AF[0]`, but at a biallelic variant the two
frequencies are complementary and the interval is symmetric, so the claimed
bound on the alternate-allele frequency `AF[1]` follows. -/
theorem ld_prune_filter_frequency (mt : List MatrixRow) (r : MatrixRow)
    (hr : r ∈ ld_prune_filter mt) :
    (1 : ℚ) / 1000 < altAF r.calls ∧ altAF r.calls < 999 / 1000 := by
  have hf : freqOK r := by
    simp only [ld_prune_filter, List.mem_filter, decide_eq_true_eq] at hr
    exact hr.1.2
  unfold freqOK at hf
  have hcpos : 0 < calledCount r.calls := by
    by_contra hc
    push_neg at hc
    have h0 : refAF r.calls = 0 := by
      unfold refAF
      rw [Nat.le_zero.mp hc]
      simp
    have h1 := hf.1
    rw [h0] at h1
    norm_num at h1
  have hcq : (0 : ℚ) < (calledCount r.calls : ℚ) := by exact_mod_cast hcpos
  have hsum : refAF r.calls + altAF r.calls = 1 := by
    unfold refAF altAF
    rw [div_add_div_same]
    have hq : ((refAlleleCount r.calls : ℚ) + (altAlleleCount r.calls : ℚ)) =
        2 * (calledCount r.calls : ℚ) := by
      exact_mod_cast refAlleleCount_add_altAlleleCount r.calls
    rw [hq]
    exact div_self (by positivity)
  obtain ⟨hlo, hhi⟩ := hf
  constructor
  · linarith
  · linarith

/-- LD-demo fact: both demo variants pass the frequency filter. -/
theorem freqOK_ldA : freqOK ldDemoRowA := by
  unfold freqOK refAF
  rw [show refAlleleCount ldDemoRowA.calls = 6 from rfl,
    show calledCount ldDemoRowA.calls = 4 from rfl]
  norm_num

/-- LD-demo fact: the second demo variant passes the frequency filter. -/
theorem freqOK_ldB : freqOK ldDemoRowB := by
  unfold freqOK refAF
  rw [show refAlleleCount ldDemoRowB.calls = 6 from rfl,
    show calledCount ldDemoRowB.calls = 4 from rfl]
  norm_num

/-- LD-demo fact: the two demo variants are uncorrelated (r² = 0). -/
theorem r2_ldAB : r2 ldDemoRowA.calls ldDemoRowB.calls = 0 := by
  unfold r2
  rw [show pairCount ldDemoRowA.calls ldDemoRowB.calls = 4 from rfl,
    show sumXY ldDemoRowA.calls ldDemoRowB.calls = 1 from rfl,
    show sumX ldDemoRowA.calls ldDemoRowB.calls = 2 from rfl,
    show sumY ldDemoRowA.calls ldDemoRowB.calls = 2 from rfl]
  norm_num

/-- LD-demo fact: the two demo variants do not conflict for the pruner. -/
theorem conflict_ldAB :
    conflictB 500000 (8 / 10) ldDemoRowA ldDemoRowB = false := by
  unfold conflictB
  have h : ¬ ((8 : ℚ) / 10 ≤ r2 ldDemoRowA.calls ldDemoRowB.calls) := by
    rw [r2_ldAB]
    norm_num
  simp [h]

/-- LD-demo fact: the pruning stage keeps both demo variants. -/
theorem ld_prune_filter_demo : ld_prune_filter ldDemoMt = ldDemoMt := by
  have hfilt : ldDemoMt.filter (fun r => decide (freqOK r)) = ldDemoMt := by
    simp only [ldDemoMt, List.filter_cons, List.filter_nil, decide_eq_true_eq]
    simp [freqOK_ldA, freqOK_ldB]
  have step1 : greedyPrune 500000 (8 / 10) ldDemoMt =
      ldDemoRowA :: greedyPruneFuel 500000 (8 / 10) 1
        (List.filter (fun u => !(conflictB 500000 (8 / 10) ldDemoRowA u)) [ldDemoRowB]) :=
    rfl
  have step2 : List.filter (fun u => !(conflictB 500000 (8 / 10) ldDemoRowA u)) [ldDemoRowB] =
      [ldDemoRowB] := by
    simp [List.filter_cons, conflict_ldAB]
  have hkept : greedyPrune 500000 (8 / 10) ldDemoMt = ldDemoMt := by
    rw [step1, step2]
    rfl
  simp only [ld_prune_filter]
  rw [hfilt, hkept]
  decide

/-- Witness for C4 at the first demo variant. -/
theorem ld_prune_filter_frequency_witness :
    ldDemoRowA ∈ ld_prune_filter ldDemoMt ∧
    ((1 : ℚ) / 1000 < altAF ldDemoRowA.calls ∧ altAF ldDemoRowA.calls < 999 / 1000) :=
  ⟨by rw [ld_prune_filter_demo]; decide,
    ld_prune_filter_frequency ldDemoMt ldDemoRowA (by rw [ld_prune_filter_demo]; decide)⟩

/- ## C5: no retained variant pair within a window has r² at or above
   threshold -/

/-- Swapping the variant order swaps the dosage pairs. -/
theorem dosagePairs_swap (xs ys : List GTCall) :
    dosagePairs ys xs = (dosagePairs xs ys).map Prod.swap := by
  unfold dosagePairs
  rw [← List.zip_swap xs ys, List.filterMap_map, List.map_filterMap]
  congr 1
  funext p
  obtain ⟨a, b⟩ := p
  cases a <;> cases b <;> rfl

/-- The pairwise-complete count is symmetric. -/
theorem pairCount_swap (xs ys : List GTCall) : pairCount ys xs = pairCount xs ys := by
  unfold pairCount
  rw [dosagePairs_swap]
  exact List.length_map _ _

/-- Swapping the variants exchanges the first-dosage sum for the
second-dosage sum. -/
theorem sumX_swap (xs ys : List GTCall) : sumX ys xs = sumY xs ys := by
  unfold sumX sumY
  rw [dosagePairs_swap, List.map_map]
  rfl

/-- Swapping the variants exchanges the second-dosage sum for the
first-dosage sum. -/
theorem sumY_swap (xs ys : List GTCall) : sumY ys xs = sumX xs ys := by
  unfold sumX sumY
  rw [dosagePairs_swap, List.map_map]
  rfl

/-- Swapping the variants exchanges the squared-dosage sums. -/
theorem sumXX_swap (xs ys : List GTCall) : sumXX ys xs = sumYY xs ys := by
  unfold sumXX sumYY
  rw [dosagePairs_swap, List.map_map]
  rfl

/-- Swapping the variants exchanges the squared-dosage sums back. -/
theorem sumYY_swap (xs ys : List GTCall) : sumYY ys xs = sumXX xs ys := by
  unfold sumXX sumYY
  rw [dosagePairs_swap, List.map_map]
  rfl

/-- The dosage-product sum is symmetric. -/
theorem sumXY_swap (xs ys : List GTCall) : sumXY ys xs = sumXY xs ys := by
  unfold sumXY
  rw [dosagePairs_swap, List.map_map]
  have h : ((fun p : ℕ × ℕ => p.1 * p.2) ∘ Prod.swap) = fun p : ℕ × ℕ => p.2 * p.1 :=
    rfl
  rw [h]
  have h2 : (fun p : ℕ × ℕ => p.2 * p.1) = fun p : ℕ × ℕ => p.1 * p.2 :=
    funext fun p => Nat.mul_comm _ _
  rw [h2]

/-- LD r² is symmetric in its two variants. -/
theorem r2_symm (xs ys : List GTCall) : r2 xs ys = r2 ys xs := by
  unfold r2
  rw [pairCount_swap xs ys, sumXY_swap xs ys, sumX_swap xs ys, sumY_swap xs ys,
    sumXX_swap xs ys, sumYY_swap xs ys]
  ring

/-- The pruner's conflict test is symmetric. -/
theorem conflictB_symm (w : Nat) (t : ℚ) (v u : MatrixRow) :
    conflictB w t v u = conflictB w t u v := by
  unfold conflictB
  rw [Nat.dist_comm v.locus.position u.locus.position, r2_symm v.calls u.calls,
    decide_eq_decide.mpr (eq_comm (a := v.locus.contig) (b := u.locus.contig))]

/-- The greedy pruner only returns candidates from its input list. -/
theorem greedyPruneFuel_subset (w : Nat) (t : ℚ) (fuel : Nat) :
    ∀ (l : List MatrixRow), ∀ x ∈ greedyPruneFuel w t fuel l, x ∈ l := by
  induction fuel with
  | zero =>
      intro l x hx
      cases l with
      | nil => simp [greedyPruneFuel] at hx
      | cons a rest => simp [greedyPruneFuel] at hx
  | succ n ih =>
      intro l x hx
      cases l with
      | nil => simp [greedyPruneFuel] at hx
      | cons a rest =>
          simp only [greedyPruneFuel] at hx
          rcases List.mem_cons.mp hx with rfl | hx'
          · exact List.mem_cons_self _ _
          · exact List.mem_cons_of_mem a (List.mem_filter.mp (ih _ x hx')).1

/-- No two distinct variants retained by the greedy pruner conflict. -/
theorem greedyPruneFuel_no_conflict (w : Nat) (t : ℚ) (fuel : Nat) :
    ∀ (l : List MatrixRow) (v u : MatrixRow),
      v ∈ greedyPruneFuel w t fuel l → u ∈ greedyPruneFuel w t fuel l → v ≠ u →
      conflictB w t v u = false := by
  induction fuel with
  | zero =>
      intro l v u hv _ _
      cases l with
      | nil => simp [greedyPruneFuel] at hv
      | cons a rest => simp [greedyPruneFuel] at hv
  | succ n ih =>
      intro l v u hv hu hne
      cases l with
      | nil => simp [greedyPruneFuel] at hv
      | cons a rest =>
          simp only [greedyPruneFuel] at hv hu
          rcases List.mem_cons.mp hv with rfl | hv'
          · rcases List.mem_cons.mp hu with rfl | hu'
            · exact absurd rfl hne
            · have hmem := greedyPruneFuel_subset w t n _ u hu'
              have h2 := (List.mem_filter.mp hmem).2
              simpa using h2
          · rcases List.mem_cons.mp hu with rfl | hu'
            · have hmem := greedyPruneFuel_subset w t n _ v hv'
              have h2 := (List.mem_filter.mp hmem).2
              rw [conflictB_symm]
              simpa using h2
            · exact ih _ v u hv' hu' hne

/-- C5 (spec-modelled pruner): if the matrix has no duplicate row keys,
then any two distinct variants both retained by the LD-pruning stage that
lie on the same chromosome within 500000 bp have LD r² strictly below the
0.8 threshold. -/
theorem ld_prune_filter_pairwise_r2 (mt : List MatrixRow)
    (hnd : (mt.map rowKey).Nodup) (v u : MatrixRow)
    (hv : v ∈ ld_prune_filter mt) (hu : u ∈ ld_prune_filter mt) (hne : v ≠ u)
    (hchr : v.locus.contig = u.locus.contig)
    (hwin : Nat.dist v.locus.position u.locus.position ≤ 500000) :
    r2 v.calls u.calls < 8 / 10 := by
  have hndF : ((mt.filter (fun r => decide (freqOK r))).map rowKey).Nodup :=
    List.Nodup.sublist ((List.filter_sublist mt).map rowKey) hnd
  have hinj := List.inj_on_of_nodup_map hndF
  have hkeep : ∀ x : MatrixRow, x ∈ ld_prune_filter mt →
      x ∈ greedyPrune 500000 (8 / 10) (mt.filter (fun r => decide (freqOK r))) := by
    intro x hx
    simp only [ld_prune_filter, List.mem_filter, decide_eq_true_eq] at hx
    obtain ⟨hxF, hxkey⟩ := hx
    obtain ⟨x', hx'kept, hx'key⟩ := List.mem_map.mp hxkey
    have hx'F : x' ∈ mt.filter (fun r => decide (freqOK r)) :=
      greedyPruneFuel_subset 500000 (8 / 10) _ _ x' hx'kept
    have hxF' : x ∈ mt.filter (fun r => decide (freqOK r)) := by
      simp only [List.mem_filter, decide_eq_true_eq]
      exact hxF
    have : x' = x := hinj hx'F hxF' hx'key
    rw [← this]
    exact hx'kept
  have hcf := greedyPruneFuel_no_conflict 500000 (8 / 10) _ _ v u
    (hkeep v hv) (hkeep u hu) hne
  by_contra hge
  push_neg at hge
  have e1 : decide (v.locus.contig = u.locus.contig) = true := decide_eq_true hchr
  have e2 : decide (Nat.dist v.locus.position u.locus.position ≤ 500000) = true :=
    decide_eq_true hwin
  have e3 : decide ((8 : ℚ) / 10 ≤ r2 v.calls u.calls) = true := decide_eq_true hge
  unfold conflictB at hcf
  rw [e1, e2, e3] at hcf
  simp at hcf

/-- Witness for C5 at the two demo variants, 100 bp apart on chr1. -/
theorem ld_prune_filter_pairwise_r2_witness :
    (ldDemoMt.map rowKey).Nodup ∧
    ldDemoRowA ∈ ld_prune_filter ldDemoMt ∧ ldDemoRowB ∈ ld_prune_filter ldDemoMt ∧
    r2 ldDemoRowA.calls ldDemoRowB.calls < 8 / 10 :=
  ⟨by decide, by rw [ld_prune_filter_demo]; decide, by rw [ld_prune_filter_demo]; decide,
    ld_prune_filter_pairwise_r2 ldDemoMt (by decide) ldDemoRowA ldDemoRowB
      (by rw [ld_prune_filter_demo]; decide) (by rw [ld_prune_filter_demo]; decide)
      (by decide) (by decide) (by decide)⟩
